import Mathlib

/-!
Verification of the channel/device synchronization engine of the
wpilib-ws-robot bridge.

The engine (`wpilib-ws-robot-endpoint.ts`) is embedded as a pure step
function over an explicit state record.  JavaScript `Map` objects are
embedded as association lists with `Map.set` replace-in-place semantics
(insertion order preserved, which matters because `forEach` iterates in
insertion order).  JavaScript numbers are embedded as rationals and
strings as lists of characters.  Every call the engine makes into the
hardware abstraction (`WPILibWSRobotBase`) is recorded in an ordered log.
-/

namespace WpilibWs

/-- Lookup in an association list, first match (keys are kept unique by
`ainsert`, mirroring a JavaScript `Map`). -/
def alookup {κ : Type} {α : Type} [DecidableEq κ] : List (κ × α) → κ → Option α
  | [], _ => none
  | (k', v) :: rest, k => if k' = k then some v else alookup rest k

/-- `Map.set`: replace the value in place if the key exists, else append
at the end (JavaScript `Map` preserves insertion order). -/
def ainsert {κ : Type} {α : Type} [DecidableEq κ] : List (κ × α) → κ → α → List (κ × α)
  | [], k, v => [(k, v)]
  | (k', v') :: rest, k, v =>
    if k' = k then (k, v) :: rest else (k', v') :: ainsert rest k v

/-- Update the value stored at key `k` in place (embeds the JavaScript
idiom of mutating the object obtained from `Map.get`). -/
def aupdate {κ : Type} {α : Type} [DecidableEq κ] : List (κ × α) → κ → (α → α) → List (κ × α)
  | [], _, _ => []
  | (k', v) :: rest, k, f =>
    if k' = k then (k', f v) :: rest else (k', v) :: aupdate rest k f

/-- `Map.delete`: remove the (first) entry with the given key. -/
def aerase {κ : Type} {α : Type} [DecidableEq κ] : List (κ × α) → κ → List (κ × α)
  | [], _ => []
  | (k', v) :: rest, k => if k' = k then rest else (k', v) :: aerase rest k

/-- Map over all stored values, keeping keys (embeds `Map.forEach` loops
that overwrite every entry, such as `_stopPWMs`). -/
def amapValues {κ : Type} {α : Type} : List (κ × α) → (α → α) → List (κ × α)
  | [], _ => []
  | (k, v) :: rest, f => (k, f v) :: amapValues rest f

/-! ## Simulated-device field registry (`sim-device.ts`) -/

/-- Data-flow direction of a simulated-device field (`FieldDirection`). -/
inductive FieldDirection where
  | INPUT_TO_ROBOT_CODE
  | OUTPUT_FROM_ROBOT_CODE
  | BIDIR
  | UNK
  deriving DecidableEq, Repr

/-- Direction marker prepended to a field name to form the wire
identifier (`dirPrefix` in the source). -/
def dirMarker : FieldDirection → List Char
  | .INPUT_TO_ROBOT_CODE => ['>']
  | .OUTPUT_FROM_ROBOT_CODE => ['<']
  | .BIDIR => ['<', '>']
  | .UNK => []

/-- Field name with its direction marker prepended
(`fieldWithDirectionPrefix` in the source). -/
def fieldWithDirMarker (field : List Char) (dir : FieldDirection) : List Char :=
  dirMarker dir ++ field

structure FieldNameAndDirection where
  field : List Char
  direction : FieldDirection
  deriving DecidableEq, Repr

/-- Split an identifier into bare field name and direction, testing the
markers in source order: `<>` first, then `<`, then `>`
(`fieldNameAndDirection` in the source). -/
def fieldNameAndDirection : List Char → FieldNameAndDirection
  | '<' :: '>' :: rest => ⟨rest, .BIDIR⟩
  | '<' :: rest => ⟨rest, .OUTPUT_FROM_ROBOT_CODE⟩
  | '>' :: rest => ⟨rest, .INPUT_TO_ROBOT_CODE⟩
  | s => ⟨s, .UNK⟩

/-- A simulated device: a map from bare field name to wire identifier and
a map from wire identifier to stored value (`SimDevice`).  The value type
is a parameter, standing in for the dynamically typed `any`. -/
structure SimDevice (α : Type) where
  fieldNameToIdent : List (List Char × List Char)
  fields : List (List Char × α)
  deriving DecidableEq

namespace SimDevice

/-- `registerField`: `none` embeds the thrown duplicate-field error. -/
def registerField {α : Type} (dev : SimDevice α) (field : List Char)
    (direction : FieldDirection) (defaultValue : α) : Option (SimDevice α) :=
  let fieldIdent := fieldWithDirMarker field direction
  match alookup dev.fieldNameToIdent field with
  | some _ => none
  | none =>
    some ⟨ainsert dev.fieldNameToIdent field fieldIdent, ainsert dev.fields fieldIdent defaultValue⟩

/-- `getValue`: accepts a bare name or a prefixed identifier; `none`
embeds the `undefined` returned for an unregistered field. -/
def getValue {α : Type} (dev : SimDevice α) (fieldNameOrIdent : List Char) : Option α :=
  let nd := fieldNameAndDirection fieldNameOrIdent
  match alookup dev.fieldNameToIdent nd.field with
  | some fieldIdent => alookup dev.fields fieldIdent
  | none => none

/-- `setValue`: same resolution; a no-op if the field is unregistered.
The base-class `_onSetValue` hook is a no-op. -/
def setValue {α : Type} (dev : SimDevice α) (fieldNameOrIdent : List Char) (value : α) :
    SimDevice α :=
  let nd := fieldNameAndDirection fieldNameOrIdent
  match alookup dev.fieldNameToIdent nd.field with
  | some fieldIdent => ⟨dev.fieldNameToIdent, ainsert dev.fields fieldIdent value⟩
  | none => dev

end SimDevice

/-! ## Channel/device synchronization engine (`wpilib-ws-robot-endpoint.ts`) -/

/-- `DigitalChannelMode` from `robot-base.ts`. -/
inductive DigitalChannelMode where
  | INPUT
  | OUTPUT
  | UNCONFIGURED
  deriving DecidableEq, Repr

/-- `IDioModeAndValue`. -/
structure IDioModeAndValue where
  mode : DigitalChannelMode
  value : Bool
  deriving DecidableEq, Repr

/-- `IEncoderInfo`.  `channelA`/`channelB` come from the init payload,
whose `<channel_a`/`<channel_b` keys may be absent (`undefined`). -/
structure IEncoderInfo where
  channelA : Option Nat
  channelB : Option Nat
  count : ℚ
  deriving DecidableEq, Repr

/-- `channelData` for PWM channels. -/
structure ChannelData where
  defaultValue : ℚ
  currentValue : ℚ
  deriving DecidableEq, Repr

/-- `IAccelInfo`. -/
structure IAccelInfo where
  accelX : ℚ
  accelY : ℚ
  accelZ : ℚ
  deriving DecidableEq, Repr

/-- `IGyroInfo`. -/
structure IGyroInfo where
  rateX : ℚ
  rateY : ℚ
  rateZ : ℚ
  angleX : ℚ
  angleY : ℚ
  angleZ : ℚ
  deriving DecidableEq, Repr

/-- `dsMode`: the stored `>autonomous` / `>test` flags. -/
structure DsMode where
  autonomous : Bool
  test : Bool
  deriving DecidableEq, Repr

/-- `PWM_NO_MOVEMENT = 127.5`: PWMs range over 0–255, the midpoint is no
movement.  Stated as the literal rational `255/2` in lowest terms (see
`PWM_NO_MOVEMENT_eq`) so that concrete engine runs reduce inside the
kernel. -/
def PWM_NO_MOVEMENT : ℚ := ⟨255, 2, by norm_num, by norm_num⟩

/-- Modelled from the spec: `mapValue` lives in `math-util.ts`, which is
not among the provided sources; §4.1 gives its exact formula
`outMin + (value - inMin) * (outMax - outMin) / (inMax - inMin)` with no
clamping. -/
def mapValue (value inMin inMax outMin outMax : ℚ) : ℚ :=
  outMin + (value - inMin) * (outMax - outMin) / (inMax - inMin)

/-- `WPILibWSMessages.DIOPayload`: keys `<init`, `<input`, `<>value`.
`none` embeds an absent (`undefined`) key. -/
structure DIOPayload where
  init : Option Bool
  input : Option Bool
  value : Option Bool
  deriving DecidableEq, Repr

/-- `AIPayload`: only `<init` is read by the engine. -/
structure AIPayload where
  init : Option Bool
  deriving DecidableEq, Repr

/-- `AOPayload`: keys `<init` and `<votage` (sic).  The current endpoint
revision subscribes no analog-out handler, so this payload is never
inspected. -/
structure AOPayload where
  init : Option Bool
  votage : Option ℚ
  deriving DecidableEq, Repr

/-- `PWMPayload`: keys `<init`, `<speed`, `<position`, `<raw`. -/
structure PWMPayload where
  init : Option Bool
  speed : Option ℚ
  position : Option ℚ
  raw : Option ℚ
  deriving DecidableEq, Repr

/-- `EncoderPayload`: keys `<init`, `<channel_a`, `<channel_b`,
`<reset`, `<reverse_direction`.  The current handler reads only the
first three. -/
structure EncoderPayload where
  init : Option Bool
  channelA : Option Nat
  channelB : Option Nat
  reset : Option Bool
  reverseDirection : Option Bool
  deriving DecidableEq, Repr

/-- `DriverStationPayload`: keys `>enabled`, `>autonomous`, `>test`. -/
structure DSPayload where
  enabled : Option Bool
  autonomous : Option Bool
  test : Option Bool
  deriving DecidableEq, Repr

/-- `AccelPayload` inbound keys read by the engine: `<init`, `<range`. -/
structure AccelPayload where
  init : Option Bool
  range : Option ℚ
  deriving DecidableEq, Repr

/-- `GyroPayload` inbound keys read by the engine: `<init`, `<range`. -/
structure GyroPayload where
  init : Option Bool
  range : Option ℚ
  deriving DecidableEq, Repr

/-- A loosely typed simulated-device payload value. -/
inductive JSVal where
  | num (q : ℚ)
  | bool (b : Bool)
  | str (s : List Char)
  deriving DecidableEq, Repr

/-- One call into the hardware abstraction (`WPILibWSRobotBase`), or a
`setValue` applied to a robot-owned `SimDevice`, or a range write to a
robot-owned accelerometer/gyro.  The engine's effect on the robot is the
ordered log of these calls. -/
inductive HALCall where
  | setDigitalChannelMode (channel : Nat) (mode : DigitalChannelMode)
  | setDIOValue (channel : Nat) (value : Bool)
  | setPWMValue (channel : Nat) (value : ℚ)
  | registerEncoder (channel : Nat) (channelA : Option Nat) (channelB : Option Nat)
  | resetEncoder (channel : Nat)
  | setAccelRange (name : List Char) (channel : Option Nat) (range : ℚ)
  | setGyroRange (name : List Char) (channel : Option Nat) (range : ℚ)
  | simSetValue (name : List Char) (channel : Option Nat) (key : List Char) (value : JSVal)
  | onWSConnection
  | onWSDisconnection
  deriving DecidableEq, Repr

/-- The read-only robot-side registries the handlers consult
(`getAccelerometer`, `getGyro`, `getSimDevice` returning `null` or not). -/
structure Robot where
  hasAccel : List Char → Option Nat → Bool
  hasGyro : List Char → Option Nat → Bool
  hasSimDevice : List Char → Option Nat → Bool

/-- Buffered fields of a pre-init DIO message (`_pendingDioEvents`
entry). -/
structure PendingDio where
  input : Option Bool
  value : Option Bool
  deriving DecidableEq, Repr

/-- The engine's mutable fields. -/
structure EndpointState where
  dioChannels : List (Nat × IDioModeAndValue)
  ainChannels : List (Nat × ℚ)
  aoutChannels : List (Nat × ℚ)
  pwmChannels : List (Nat × ChannelData)
  encoderChannels : List (Nat × IEncoderInfo)
  accelDevices : List (List Char × IAccelInfo)
  gyroDevices : List (List Char × IGyroInfo)
  dsMode : DsMode
  driverStationEnabled : Bool
  pendingDioEvents : List (Nat × PendingDio)
  deriving DecidableEq, Repr

/-- The state after construction: empty tables, `_dsMode` all false,
driver station disabled. -/
def freshState : EndpointState :=
  ⟨[], [], [], [], [], [], [], ⟨false, false⟩, false, []⟩

/-- `_checkChannelInit`: create the entry when an init message arrives
for an unknown channel, and report whether the channel is (now) known.
The JavaScript truthiness test `if (initMsg)` passes only for `true`. -/
def checkChannelInit {α : Type} (channel : Nat) (initMsg : Option Bool)
    (channelMap : List (Nat × α)) (defaultValue : α) : Bool × List (Nat × α) :=
  match alookup channelMap channel with
  | some _ => (true, channelMap)
  | none =>
    if initMsg = some true then (true, ainsert channelMap channel defaultValue)
    else (false, channelMap)

/-- `_checkDeviceInit`: same logic keyed by device-identifier string. -/
def checkDeviceInit {α : Type} (deviceIdent : List Char) (initMsg : Option Bool)
    (deviceMap : List (List Char × α)) (defaultValue : α) : Bool × List (List Char × α) :=
  match alookup deviceMap deviceIdent with
  | some _ => (true, deviceMap)
  | none =>
    if initMsg = some true then (true, ainsert deviceMap deviceIdent defaultValue)
    else (false, deviceMap)

/-- Device identifier: name plus `[channel]` when a channel is given. -/
def deviceIdent (name : List Char) (channel : Option Nat) : List Char :=
  name ++ (match channel with
    | some c => '[' :: (Nat.toDigits 10 c ++ [']'])
    | none => [])

/-- `_pausePWMs`: drive every PWM channel to neutral, leaving the cached
`currentValue` untouched. -/
def pausePWMs (pwm : List (Nat × ChannelData)) : List HALCall :=
  pwm.map (fun p => HALCall.setPWMValue p.1 PWM_NO_MOVEMENT)

/-- `_resumePWMs`: drive every PWM channel back to its cached
`currentValue`. -/
def resumePWMs (pwm : List (Nat × ChannelData)) : List HALCall :=
  pwm.map (fun p => HALCall.setPWMValue p.1 p.2.currentValue)

/-- `_stopPWMs`: set every cached `currentValue` to neutral and drive
every PWM channel to neutral. -/
def stopPWMs (pwm : List (Nat × ChannelData)) : List (Nat × ChannelData) × List HALCall :=
  (amapValues pwm (fun d => ⟨d.defaultValue, PWM_NO_MOVEMENT⟩),
   pwm.map (fun p => HALCall.setPWMValue p.1 PWM_NO_MOVEMENT))

/-- `_checkModeChange`: the source compares the payload flag to the
stored flag with `==`, so `modeChange` is reported when the incoming
value EQUALS the stored one, and `>autonomous` is tested before
`>test` (`else if`). -/
def checkModeChange (m : DsMode) (p : DSPayload) : DsMode × Bool :=
  match p.autonomous with
  | some a =>
    if m.autonomous = a then (⟨a, m.test⟩, true)
    else
      match p.test with
      | some t => if m.test = t then (⟨m.autonomous, t⟩, true) else (m, false)
      | none => (m, false)
  | none =>
    match p.test with
    | some t => if m.test = t then (⟨m.autonomous, t⟩, true) else (m, false)
    | none => (m, false)

/-- `_handleDriverStationEvent`: apply `>enabled` (pausing or resuming
PWMs), then stop all PWMs if `_checkModeChange` reports a change. -/
def handleDriverStationEvent (s : EndpointState) (p : DSPayload) :
    EndpointState × List HALCall :=
  let s1 :=
    match p.enabled with
    | some e => { s with driverStationEnabled := e }
    | none => s
  let calls1 :=
    match p.enabled with
    | some e => if e then resumePWMs s.pwmChannels else pausePWMs s.pwmChannels
    | none => []
  let cm := checkModeChange s1.dsMode p
  let s2 := { s1 with dsMode := cm.1 }
  if cm.2 then
    ({ s2 with pwmChannels := (stopPWMs s2.pwmChannels).1 },
     calls1 ++ (stopPWMs s2.pwmChannels).2)
  else (s2, calls1)

/-- `_handleDioEvent`: drop-or-buffer before init (stashing `<input` and
`<>value` in `_pendingDioEvents`), replay buffered fields once the
channel exists, apply `<input` as a mode switch, and apply `<>value`
only in OUTPUT mode. -/
def handleDioEvent (s : EndpointState) (channel : Nat) (p : DIOPayload) :
    EndpointState × List HALCall :=
  let ck := checkChannelInit channel p.init s.dioChannels ⟨DigitalChannelMode.UNCONFIGURED, false⟩
  let dio1 := ck.2
  if ck.1 then
    let entry := (alookup dio1 channel).getD ⟨DigitalChannelMode.UNCONFIGURED, false⟩
    let pend := alookup s.pendingDioEvents channel
    let effInput :=
      match pend with
      | some pe => (match p.input with | some b => some b | none => pe.input)
      | none => p.input
    let effValue :=
      match pend with
      | some pe => (match p.value with | some b => some b | none => pe.value)
      | none => p.value
    let pending1 :=
      match pend with
      | some _ => aerase s.pendingDioEvents channel
      | none => s.pendingDioEvents
    let mode1 :=
      match effInput with
      | some true => DigitalChannelMode.INPUT
      | some false => DigitalChannelMode.OUTPUT
      | none => entry.mode
    let dio2 :=
      match effInput with
      | some true => aupdate dio1 channel (fun e => ⟨DigitalChannelMode.INPUT, e.value⟩)
      | some false => aupdate dio1 channel (fun e => ⟨DigitalChannelMode.OUTPUT, e.value⟩)
      | none => dio1
    let callsIn : List HALCall :=
      match effInput with
      | some true => [HALCall.setDigitalChannelMode channel DigitalChannelMode.INPUT]
      | some false => [HALCall.setDigitalChannelMode channel DigitalChannelMode.OUTPUT]
      | none => []
    let dio3 :=
      match effValue with
      | some v =>
        if mode1 = DigitalChannelMode.OUTPUT then aupdate dio2 channel (fun e => ⟨e.mode, v⟩)
        else dio2
      | none => dio2
    let callsVal : List HALCall :=
      match effValue with
      | some v => if mode1 = DigitalChannelMode.OUTPUT then [HALCall.setDIOValue channel v] else []
      | none => []
    ({ s with dioChannels := dio3, pendingDioEvents := pending1 }, callsIn ++ callsVal)
  else
    let pend0 := (alookup s.pendingDioEvents channel).getD ⟨none, none⟩
    let pend1 : PendingDio :=
      ⟨(match p.input with | some b => some b | none => pend0.input),
       (match p.value with | some b => some b | none => pend0.value)⟩
    ({ s with pendingDioEvents := ainsert s.pendingDioEvents channel pend1 }, [])

/-- `_handleAnalogInEvent`: init-only (analog-in is a pure
hardware-to-protocol channel). -/
def handleAnalogInEvent (s : EndpointState) (channel : Nat) (p : AIPayload) :
    EndpointState × List HALCall :=
  ({ s with ainChannels := (checkChannelInit channel p.init s.ainChannels 0).2 }, [])

/-- `_handlePWMEvent`: `_checkChannelInit` runs unconditionally (so an
init message creates the entry even while disabled), then the command
part is gated on `_driverStationEnabled`.  Only `<speed` and
`<position` are read — `<raw` is ignored by this revision — and
`<position` overwrites a `<speed` also present in the same message. -/
def handlePWMEvent (s : EndpointState) (channel : Nat) (p : PWMPayload) :
    EndpointState × List HALCall :=
  let ck := checkChannelInit channel p.init s.pwmChannels ⟨PWM_NO_MOVEMENT, PWM_NO_MOVEMENT⟩
  let pwm1 := ck.2
  let s1 := { s with pwmChannels := pwm1 }
  if ck.1 && s.driverStationEnabled then
    let pv1 : Option ℚ :=
      match p.speed with
      | some sp => some (mapValue sp (-1) 1 0 255)
      | none => none
    let pv2 : Option ℚ :=
      match p.position with
      | some pos => some (mapValue pos 0 1 0 255)
      | none => pv1
    match pv2 with
    | some x =>
      ({ s1 with pwmChannels := aupdate pwm1 channel (fun d => ⟨d.defaultValue, x⟩) },
       [HALCall.setPWMValue channel x])
    | none => (s1, [])
  else (s1, [])

/-- `_handleEncoderEvent`: the init default captures the payload's
quadrature indices; when the entry already exists it is left untouched,
and an init message re-registers using the STORED indices.  This
revision reads neither `<reset` nor `<reverse_direction`. -/
def handleEncoderEvent (s : EndpointState) (channel : Nat) (p : EncoderPayload) :
    EndpointState × List HALCall :=
  let ck := checkChannelInit channel p.init s.encoderChannels ⟨p.channelA, p.channelB, 0⟩
  let enc1 := ck.2
  let s1 := { s with encoderChannels := enc1 }
  if ck.1 then
    if p.init = some true then
      let info := (alookup enc1 channel).getD ⟨none, none, 0⟩
      (s1, [HALCall.registerEncoder channel info.channelA info.channelB])
    else (s1, [])
  else (s1, [])

/-- `_handleAccelEvent`. -/
def handleAccelEvent (rob : Robot) (s : EndpointState) (name : List Char)
    (channel : Option Nat) (p : AccelPayload) : EndpointState × List HALCall :=
  let ident := deviceIdent name channel
  let ck := checkDeviceInit ident p.init s.accelDevices ⟨0, 0, 0⟩
  let s1 := { s with accelDevices := ck.2 }
  if ck.1 then
    if rob.hasAccel name channel then
      match p.range with
      | some r => (s1, [HALCall.setAccelRange name channel r])
      | none => (s1, [])
    else (s1, [])
  else (s1, [])

/-- `_handleGyroEvent`. -/
def handleGyroEvent (rob : Robot) (s : EndpointState) (name : List Char)
    (channel : Option Nat) (p : GyroPayload) : EndpointState × List HALCall :=
  let ident := deviceIdent name channel
  let ck := checkDeviceInit ident p.init s.gyroDevices ⟨0, 0, 0, 0, 0, 0⟩
  let s1 := { s with gyroDevices := ck.2 }
  if ck.1 then
    if rob.hasGyro name channel then
      match p.range with
      | some r => (s1, [HALCall.setGyroRange name channel r])
      | none => (s1, [])
    else (s1, [])
  else (s1, [])

/-- `_handleSimDeviceEvent`: unknown devices are silently ignored; every
payload key is forwarded to the device's `setValue`. -/
def handleSimDeviceEvent (rob : Robot) (s : EndpointState) (name : List Char)
    (channel : Option Nat) (p : List (List Char × JSVal)) : EndpointState × List HALCall :=
  if rob.hasSimDevice name channel then
    (s, p.map (fun kv => HALCall.simSetValue name channel kv.1 kv.2))
  else (s, [])

/-- `_handleCloseConnection`: clear the DIO/analog-in/analog-out tables,
stop and clear PWMs, reset and clear encoders, then invoke the
disconnection hook.  `_accelDevices`, `_gyroDevices`, `_dsMode`,
`_driverStationEnabled` and `_pendingDioEvents` are NOT touched. -/
def handleCloseConnection (s : EndpointState) : EndpointState × List HALCall :=
  let stopCalls := (stopPWMs s.pwmChannels).2
  let resetCalls := s.encoderChannels.map (fun p => HALCall.resetEncoder p.1)
  ({ s with dioChannels := [], ainChannels := [], aoutChannels := [],
            pwmChannels := [], encoderChannels := [] },
   stopCalls ++ resetCalls ++ [HALCall.onWSDisconnection])

/-- One inbound transport event.  `_hookupEvents` subscribes handlers
for exactly these; in particular NO handler is subscribed for analog-out
events in this revision, so an `analogOut` event is a no-op. -/
inductive WSEvent where
  | dio (channel : Nat) (p : DIOPayload)
  | analogIn (channel : Nat) (p : AIPayload)
  | analogOut (channel : Nat) (p : AOPayload)
  | pwm (channel : Nat) (p : PWMPayload)
  | encoder (channel : Nat) (p : EncoderPayload)
  | driverStation (p : DSPayload)
  | accel (name : List Char) (channel : Option Nat) (p : AccelPayload)
  | gyro (name : List Char) (channel : Option Nat) (p : GyroPayload)
  | simDevice (name : List Char) (channel : Option Nat) (p : List (List Char × JSVal))
  | openConn
  | closeConn
  deriving DecidableEq, Repr

/-- Dispatch one inbound event to its handler. -/
def step (rob : Robot) (s : EndpointState) : WSEvent → EndpointState × List HALCall
  | .dio channel p => handleDioEvent s channel p
  | .analogIn channel p => handleAnalogInEvent s channel p
  | .analogOut _ _ => (s, [])
  | .pwm channel p => handlePWMEvent s channel p
  | .encoder channel p => handleEncoderEvent s channel p
  | .driverStation p => handleDriverStationEvent s p
  | .accel name channel p => handleAccelEvent rob s name channel p
  | .gyro name channel p => handleGyroEvent rob s name channel p
  | .simDevice name channel p => handleSimDeviceEvent rob s name channel p
  | .openConn => (s, [HALCall.onWSConnection])
  | .closeConn => handleCloseConnection s

/-- Process a list of inbound events in arrival order, concatenating the
hardware-abstraction call logs. -/
def runSteps (rob : Robot) (s : EndpointState) : List WSEvent → EndpointState × List HALCall
  | [] => (s, [])
  | e :: rest =>
    let r := step rob s e
    let r' := runSteps rob r.1 rest
    (r'.1, r.2 ++ r'.2)

/-! ## Specification-side (ghost) definitions used to state the claims -/

/-- The five per-category channel tables. -/
inductive ChanCat where
  | dio
  | ain
  | aout
  | pwm
  | encoder
  deriving DecidableEq, Repr

/-- Whether a channel entry exists in the given category's table. -/
def tableHas (s : EndpointState) : ChanCat → Nat → Bool
  | .dio, i => (alookup s.dioChannels i).isSome
  | .ain, i => (alookup s.ainChannels i).isSome
  | .aout, i => (alookup s.aoutChannels i).isSome
  | .pwm, i => (alookup s.pwmChannels i).isSome
  | .encoder, i => (alookup s.encoderChannels i).isSome

/-- Whether an event is an initialization message for index `i` of the
given category, as seen by the engine.  No analog-out handler is
subscribed in this revision, so no event initializes an analog-out
channel. -/
def eventInits : WSEvent → ChanCat → Nat → Bool
  | .dio ch p, .dio, i => ch == i && p.init == some true
  | .analogIn ch p, .ain, i => ch == i && p.init == some true
  | .pwm ch p, .pwm, i => ch == i && p.init == some true
  | .encoder ch p, .encoder, i => ch == i && p.init == some true
  | _, _, _ => false

/-- Fold an "init observed" flag over a trace: a transport close resets
it, an init message for the category/index sets it. -/
def initSinceAux (acc : ChanCat → Nat → Bool) : List WSEvent → ChanCat → Nat → Bool
  | [], cat, i => acc cat i
  | e :: rest, cat, i =>
    initSinceAux
      (fun c j => if e = WSEvent.closeConn then false else (acc c j || eventInits e c j))
      rest cat i

/-- Whether an initialization message for index `i` of category `cat`
has been observed since the most recent transport disconnect (or process
start) in the given trace. -/
def initSince (es : List WSEvent) (cat : ChanCat) (i : Nat) : Bool :=
  initSinceAux (fun _ _ => false) es cat i

/-- Whether an event is a PWM message. -/
def isPWMEvent : WSEvent → Bool
  | .pwm _ _ => true
  | _ => false

/-- Whether a hardware-abstraction call is a digital-output write. -/
def isSetDIOCall : HALCall → Bool
  | .setDIOValue _ _ => true
  | _ => false

/-- A robot whose registries answer every device query positively (used
for concrete instantiations; the engine's table behaviour does not
depend on it). -/
def sampleRobot : Robot :=
  ⟨fun _ _ => true, fun _ _ => true, fun _ _ => true⟩

/-! ## Association-list lemmas -/

theorem PWM_NO_MOVEMENT_eq : PWM_NO_MOVEMENT = 255 / 2 := by
  rw [PWM_NO_MOVEMENT, Rat.mk'_eq_divInt, Rat.divInt_eq_div]
  norm_num

theorem alookup_ainsert {κ α : Type} [DecidableEq κ] (m : List (κ × α)) (k i : κ) (v : α) :
    alookup (ainsert m k v) i = if k = i then some v else alookup m i := by
  induction m with
  | nil => by_cases h : k = i <;> simp [ainsert, alookup, h]
  | cons p rest ih =>
    obtain ⟨k', v'⟩ := p
    by_cases hk : k' = k
    · subst hk
      by_cases hi : k' = i <;> simp [ainsert, alookup, hi]
    · by_cases hi : k' = i
      · subst hi
        have : ¬ k = k' := fun h => hk h.symm
        simp [ainsert, alookup, hk, this]
      · simp [ainsert, alookup, hk, hi, ih]

theorem alookup_ainsert_self {κ α : Type} [DecidableEq κ] (m : List (κ × α)) (k : κ) (v : α) :
    alookup (ainsert m k v) k = some v := by
  simp [alookup_ainsert]

theorem alookup_aupdate {κ α : Type} [DecidableEq κ] (m : List (κ × α)) (k i : κ) (f : α → α) :
    alookup (aupdate m k f) i =
      if k = i then (alookup m i).map f else alookup m i := by
  induction m with
  | nil => by_cases h : k = i <;> simp [aupdate, alookup, h]
  | cons p rest ih =>
    obtain ⟨k', v'⟩ := p
    by_cases hk : k' = k
    · subst hk
      by_cases hi : k' = i <;> simp [aupdate, alookup, hi]
    · by_cases hi : k' = i
      · subst hi
        have hki : ¬ k = k' := fun h => hk h.symm
        simp [aupdate, alookup, hk, hki]
      · simp [aupdate, alookup, hk, hi, ih]

theorem alookup_isSome_aupdate {κ α : Type} [DecidableEq κ] (m : List (κ × α)) (k i : κ)
    (f : α → α) : (alookup (aupdate m k f) i).isSome = (alookup m i).isSome := by
  rw [alookup_aupdate]
  by_cases h : k = i <;> simp [h]

theorem mem_of_alookup_eq_some {κ α : Type} [DecidableEq κ] {m : List (κ × α)} {k : κ} {v : α}
    (h : alookup m k = some v) : (k, v) ∈ m := by
  induction m with
  | nil => simp [alookup] at h
  | cons p rest ih =>
    obtain ⟨k', v'⟩ := p
    by_cases hk : k' = k
    · subst hk
      simp [alookup] at h
      simp [h]
    · simp [alookup, hk] at h
      simp [ih h]

theorem alookup_amapValues {κ α : Type} [DecidableEq κ] (m : List (κ × α)) (f : α → α) (i : κ) :
    alookup (amapValues m f) i = (alookup m i).map f := by
  induction m with
  | nil => simp [amapValues, alookup]
  | cons p rest ih =>
    obtain ⟨k', v'⟩ := p
    by_cases hi : k' = i <;> simp [amapValues, alookup, hi, ih]

/-! ## Claim theorems -/

/-- C1 (code bug).  `_checkModeChange` compares the payload flag to the
stored flag with `==` instead of `!=`, inverting mode-change detection.
With stored mode `{autonomous: false, test: false}` and one initialized
PWM channel commanded to 200: a message that CHANGES `>autonomous` to
`true` produces no hardware call and leaves the cached command at 200
(the claim requires all PWM channels to be driven to neutral), while a
message that REPEATS `>autonomous = false` stops all PWMs. -/
theorem c1_mode_change_inverted :
    (handleDriverStationEvent
        ⟨[], [], [], [(0, ⟨PWM_NO_MOVEMENT, 200⟩)], [], [], [], ⟨false, false⟩, true, []⟩
        ⟨none, some true, none⟩).2 = [] ∧
    alookup (handleDriverStationEvent
        ⟨[], [], [], [(0, ⟨PWM_NO_MOVEMENT, 200⟩)], [], [], [], ⟨false, false⟩, true, []⟩
        ⟨none, some true, none⟩).1.pwmChannels 0 = some ⟨PWM_NO_MOVEMENT, 200⟩ ∧
    (handleDriverStationEvent
        ⟨[], [], [], [(0, ⟨PWM_NO_MOVEMENT, 200⟩)], [], [], [], ⟨false, false⟩, true, []⟩
        ⟨none, some false, none⟩).2 = [HALCall.setPWMValue 0 PWM_NO_MOVEMENT] := by
  decide

/-- C9.  A PWM init message received while the driver station is
disabled still creates the channel entry, with neutral default and
current value, and produces no hardware call: `_checkChannelInit` runs
before the `_driverStationEnabled` gate. -/
theorem c9_init_while_disabled_creates_entry (s : EndpointState) (channel : Nat)
    (p : PWMPayload) (hdis : s.driverStationEnabled = false)
    (habs : alookup s.pwmChannels channel = none) (hinit : p.init = some true) :
    (handlePWMEvent s channel p).2 = [] ∧
    alookup (handlePWMEvent s channel p).1.pwmChannels channel =
      some ⟨PWM_NO_MOVEMENT, PWM_NO_MOVEMENT⟩ := by
  simp [handlePWMEvent, checkChannelInit, habs, hinit, hdis, alookup_ainsert_self]

/-- Witness for `c9_init_while_disabled_creates_entry` at a concrete
disabled state. -/
theorem c9_witness :
    (handlePWMEvent freshState 4 ⟨some true, none, none, none⟩).2 = [] ∧
    alookup (handlePWMEvent freshState 4 ⟨some true, none, none, none⟩).1.pwmChannels 4 =
      some ⟨PWM_NO_MOVEMENT, PWM_NO_MOVEMENT⟩ :=
  c9_init_while_disabled_creates_entry freshState 4 ⟨some true, none, none, none⟩ rfl rfl rfl

/-- C4 counterexample.  An accelerometer device initialized before a
transport close is still present in `_accelDevices` immediately after
the disconnect: `_handleCloseConnection` clears only the five channel
tables, never the accelerometer/gyro device tables, refuting "a
transport close removes every entry from every per-category channel and
device table". -/
theorem c4_accel_survives_close :
    alookup (runSteps sampleRobot freshState
        [WSEvent.accel ['a'] none ⟨some true, none⟩, WSEvent.closeConn]).1.accelDevices
      ['a'] = some ⟨0, 0, 0⟩ := by
  decide

/-- C5 counterexample.  A DIO message without the init flag addressed to
an uninitialized channel mutates engine state: the current DIO handler
buffers the message's `<>value` in `_pendingDioEvents` for later
replay, so the state after the message differs from the state before
(no hardware call is made, but "leaves all engine state unchanged"
fails). -/
theorem c5_dio_buffers_pre_init :
    (handleDioEvent freshState 0 ⟨none, none, some true⟩).2 = [] ∧
    (handleDioEvent freshState 0 ⟨none, none, some true⟩).1 ≠ freshState := by
  decide

/-- C6 counterexample.  A `<raw` command on an initialized channel while
the driver station is enabled is ignored by the current revision of
`_handlePWMEvent`: no hardware-abstraction PWM call is made and the
cached current value stays at 200, refuting "a raw value already in
hardware units is forwarded unchanged to the hardware abstraction's PWM
setter". -/
theorem c6_raw_ignored :
    (handlePWMEvent
        ⟨[], [], [], [(0, ⟨PWM_NO_MOVEMENT, 200⟩)], [], [], [], ⟨false, false⟩, true, []⟩
        0 ⟨none, none, none, some 42⟩).2 = [] ∧
    alookup (handlePWMEvent
        ⟨[], [], [], [(0, ⟨PWM_NO_MOVEMENT, 200⟩)], [], [], [], ⟨false, false⟩, true, []⟩
        0 ⟨none, none, none, some 42⟩).1.pwmChannels 0 = some ⟨PWM_NO_MOVEMENT, 200⟩ := by
  decide

/-- C8 counterexample.  For the field name `">x"` — which itself begins
with a direction marker — registering with direction BIDIR and then
`setValue`/`getValue` with the bare name returns the default, not the
just-set value: `fieldNameAndDirection` strips the leading `>` from the
bare name, so the lookup misses the registration. -/
theorem c8_marker_name_breaks_roundtrip :
    ((SimDevice.setValue
        ⟨[([ '>', 'x'], ['<', '>', '>', 'x'])], [(['<', '>', '>', 'x'], (0 : ℚ))]⟩
        ['>', 'x'] 1).getValue ['>', 'x']) = none ∧
    SimDevice.registerField (⟨[], []⟩ : SimDevice ℚ) ['>', 'x'] FieldDirection.BIDIR 0 =
      some ⟨[([ '>', 'x'], ['<', '>', '>', 'x'])], [(['<', '>', '>', 'x'], (0 : ℚ))]⟩ := by
  decide

/-- C3.  Disabling the driver station drives every initialized PWM
channel to neutral (the call log of the disable message contains the
neutral write for the channel, and consists only of neutral writes), and
a subsequent enable message drives the channel back to its cached
commanded value `v` with no intervening PWM command message. -/
theorem c3_pause_resume_restores (s : EndpointState) (ch : Nat) (dv v : ℚ)
    (h : alookup s.pwmChannels ch = some ⟨dv, v⟩) :
    HALCall.setPWMValue ch PWM_NO_MOVEMENT ∈
      (handleDriverStationEvent s ⟨some false, none, none⟩).2 ∧
    (∀ c ∈ (handleDriverStationEvent s ⟨some false, none, none⟩).2,
      ∃ ch', c = HALCall.setPWMValue ch' PWM_NO_MOVEMENT) ∧
    HALCall.setPWMValue ch v ∈
      (handleDriverStationEvent
        (handleDriverStationEvent s ⟨some false, none, none⟩).1
        ⟨some true, none, none⟩).2 := by
  have hmem : (ch, (⟨dv, v⟩ : ChannelData)) ∈ s.pwmChannels := mem_of_alookup_eq_some h
  simp only [handleDriverStationEvent, checkModeChange, pausePWMs, resumePWMs]
  refine ⟨List.mem_map.mpr ⟨(ch, ⟨dv, v⟩), hmem, rfl⟩, ?_, ?_⟩
  · intro c hc
    rcases List.mem_map.mp hc with ⟨p, -, rfl⟩
    exact ⟨p.1, rfl⟩
  · exact List.mem_map.mpr ⟨(ch, ⟨dv, v⟩), hmem, rfl⟩

/-- Witness for `c3_pause_resume_restores`: channel 3 commanded to 200,
the scenario of spec §8. -/
theorem c3_witness :
    HALCall.setPWMValue 3 200 ∈
      (handleDriverStationEvent
        (handleDriverStationEvent
          ⟨[], [], [], [(3, ⟨PWM_NO_MOVEMENT, 200⟩)], [], [], [], ⟨false, false⟩, true, []⟩
          ⟨some false, none, none⟩).1
        ⟨some true, none, none⟩).2 :=
  (c3_pause_resume_restores
    ⟨[], [], [], [(3, ⟨PWM_NO_MOVEMENT, 200⟩)], [], [], [], ⟨false, false⟩, true, []⟩
    3 PWM_NO_MOVEMENT 200 rfl).2.2

/-- While the driver station is disabled, one PWM message produces no
hardware calls, leaves the enabled flag false, preserves all existing
PWM entries, and can only add a fresh entry holding neutral values. -/
theorem handlePWMEvent_disabled (s : EndpointState) (ch : Nat) (p : PWMPayload)
    (hdis : s.driverStationEnabled = false) :
    (handlePWMEvent s ch p).2 = [] ∧
    (handlePWMEvent s ch p).1.driverStationEnabled = false ∧
    (∀ i, alookup (handlePWMEvent s ch p).1.pwmChannels i = alookup s.pwmChannels i ∨
      (alookup s.pwmChannels i = none ∧
       alookup (handlePWMEvent s ch p).1.pwmChannels i =
         some ⟨PWM_NO_MOVEMENT, PWM_NO_MOVEMENT⟩)) := by
  refine ⟨?_, ?_, ?_⟩
  · simp [handlePWMEvent, hdis]
  · simp [handlePWMEvent, hdis]
  · intro i
    simp only [handlePWMEvent, hdis, Bool.and_false, Bool.false_eq_true, if_false]
    rcases hch : alookup s.pwmChannels ch with - | e
    · by_cases hinit : p.init = some true
      · by_cases hi : ch = i
        · subst hi
          right
          refine ⟨hch, ?_⟩
          simp [checkChannelInit, hch, hinit, alookup_ainsert_self]
        · left
          simp [checkChannelInit, hch, hinit, alookup_ainsert, hi]
      · left
        simp [checkChannelInit, hch, hinit]
    · left
      simp [checkChannelInit, hch]

/-- C2.  While the driver-station-enabled flag is false, an arbitrary
sequence of PWM messages produces NO hardware-abstraction calls at all
(in particular the hardware PWM outputs, last driven to neutral by the
disable, stay neutral for the whole disabled period), every existing
channel entry keeps its cached commanded value, and entries created by
init messages during the period hold the neutral value. -/
theorem c2_disabled_pwm_commands_ignored (rob : Robot) (s : EndpointState)
    (es : List WSEvent) (hdis : s.driverStationEnabled = false)
    (hev : ∀ e ∈ es, isPWMEvent e = true) :
    (runSteps rob s es).2 = [] ∧
    (∀ i e', alookup s.pwmChannels i = some e' →
      alookup (runSteps rob s es).1.pwmChannels i = some e') ∧
    (∀ i e', alookup (runSteps rob s es).1.pwmChannels i = some e' →
      alookup s.pwmChannels i = some e' ∨ e' = ⟨PWM_NO_MOVEMENT, PWM_NO_MOVEMENT⟩) := by
  induction es generalizing s with
  | nil => exact ⟨rfl, fun i e' h => h, fun i e' h => Or.inl h⟩
  | cons e rest ih =>
    have hpwm : isPWMEvent e = true := hev e (List.mem_cons_self e rest)
    rcases e with _ | _ | _ | ⟨ch, p⟩ | _ | _ | _ | _ | _ | _ | _ <;> simp [isPWMEvent] at hpwm
    have hstep := handlePWMEvent_disabled s ch p hdis
    have hrest := ih (handlePWMEvent s ch p).1 hstep.2.1
      (fun e' he' => hev e' (List.mem_cons_of_mem _ he'))
    refine ⟨?_, ?_, ?_⟩
    · show (handlePWMEvent s ch p).2 ++ (runSteps rob (handlePWMEvent s ch p).1 rest).2 = []
      rw [hstep.1, hrest.1]
      rfl
    · intro i e' hi
      apply hrest.2.1
      rcases hstep.2.2 i with heq | ⟨hnone, -⟩
      · rw [heq]; exact hi
      · rw [hnone] at hi; cases hi
    · intro i e' hi
      rcases hrest.2.2 i e' hi with hmid | hneu
      · rcases hstep.2.2 i with heq | ⟨-, hnew⟩
        · rw [heq] at hmid; exact Or.inl hmid
        · rw [hnew] at hmid
          cases hmid
          exact Or.inr rfl
      · exact Or.inr hneu

/-- Witness for `c2_disabled_pwm_commands_ignored`: a disabled engine
with channel 0 commanded to 200 receives a speed command; no call is
logged. -/
theorem c2_witness :
    (runSteps sampleRobot
      ⟨[], [], [], [(0, ⟨PWM_NO_MOVEMENT, 200⟩)], [], [], [], ⟨false, false⟩, false, []⟩
      [WSEvent.pwm 0 ⟨none, some 1, none, none⟩]).2 = [] :=
  (c2_disabled_pwm_commands_ignored sampleRobot
    ⟨[], [], [], [(0, ⟨PWM_NO_MOVEMENT, 200⟩)], [], [], [], ⟨false, false⟩, false, []⟩
    [WSEvent.pwm 0 ⟨none, some 1, none, none⟩] rfl (by decide)).1

/-- C6 (amended).  For a PWM message on an initialized channel while the
driver station is enabled: a normalized `<position` in [0,1] wins over a
`<speed` also present (the handler computes speed first and position
overwrites it), a normalized `<speed` in [-1,1] alone is converted via
the value mapper to the 0-255 range; exactly one hardware PWM call is
made and the cached current value is updated to the forwarded value.  A
`<raw` value is ignored by this revision: with neither speed nor
position present the engine makes no call and changes nothing. -/
theorem c6_amended_speed_position_only (s : EndpointState) (ch : Nat) (dv cv : ℚ)
    (p : PWMPayload) (hen : s.driverStationEnabled = true)
    (hch : alookup s.pwmChannels ch = some ⟨dv, cv⟩) :
    match p.position, p.speed with
    | some pos, _ =>
        (handlePWMEvent s ch p).2 = [HALCall.setPWMValue ch (mapValue pos 0 1 0 255)] ∧
        alookup (handlePWMEvent s ch p).1.pwmChannels ch =
          some ⟨dv, mapValue pos 0 1 0 255⟩
    | none, some sp =>
        (handlePWMEvent s ch p).2 = [HALCall.setPWMValue ch (mapValue sp (-1) 1 0 255)] ∧
        alookup (handlePWMEvent s ch p).1.pwmChannels ch =
          some ⟨dv, mapValue sp (-1) 1 0 255⟩
    | none, none => handlePWMEvent s ch p = (s, []) := by
  rcases hpos : p.position with - | pos <;> rcases hsp : p.speed with - | sp
  · simp only [handlePWMEvent, checkChannelInit, hch, hpos, hsp]
    split <;> rfl
  all_goals
    simp [handlePWMEvent, checkChannelInit, hch, hen, hpos, hsp, alookup_aupdate]

/-- C7.  For an initialized DIO channel, a message carrying `<>value v`
forwards `v` to the hardware digital-output setter if and only if the
channel's mode after processing the message's direction field is OUTPUT;
otherwise no digital-output call is made and the entry's cached value is
unchanged. -/
theorem c7_dio_value_iff_output (s : EndpointState) (ch : Nat) (m0 : DigitalChannelMode)
    (v0 : Bool) (v : Bool) (p : DIOPayload)
    (hch : alookup s.dioChannels ch = some ⟨m0, v0⟩) (hv : p.value = some v) :
    ((handleDioEvent s ch p).2.filter isSetDIOCall =
      if ((alookup (handleDioEvent s ch p).1.dioChannels ch).getD ⟨.UNCONFIGURED, false⟩).mode
          = DigitalChannelMode.OUTPUT
      then [HALCall.setDIOValue ch v] else []) ∧
    (((alookup (handleDioEvent s ch p).1.dioChannels ch).getD ⟨.UNCONFIGURED, false⟩).mode
        ≠ DigitalChannelMode.OUTPUT →
      ((alookup (handleDioEvent s ch p).1.dioChannels ch).getD ⟨.UNCONFIGURED, false⟩).value = v0) := by
  rcases hp : alookup s.pendingDioEvents ch with - | pe
  · rcases hi : p.input with - | b
    · by_cases hm : m0 = DigitalChannelMode.OUTPUT <;>
        simp [handleDioEvent, checkChannelInit, hch, hv, hp, hi, hm, alookup_aupdate, isSetDIOCall, List.filter]
    · cases b <;>
        simp [handleDioEvent, checkChannelInit, hch, hv, hp, hi, alookup_aupdate, isSetDIOCall, List.filter]
  · rcases hi : p.input with - | b
    · rcases hpi : pe.input with - | b'
      · by_cases hm : m0 = DigitalChannelMode.OUTPUT <;>
          simp [handleDioEvent, checkChannelInit, hch, hv, hp, hi, hpi, hm, alookup_aupdate, isSetDIOCall, List.filter]
      · cases b' <;>
          simp [handleDioEvent, checkChannelInit, hch, hv, hp, hi, hpi, alookup_aupdate, isSetDIOCall, List.filter]
    · cases b <;>
        simp [handleDioEvent, checkChannelInit, hch, hv, hp, hi, alookup_aupdate, isSetDIOCall, List.filter]

/-- Witness for `c6_amended_speed_position_only`: a position command of 1
on enabled channel 3. -/
theorem c6_amended_witness :
    (handlePWMEvent
        ⟨[], [], [], [(3, ⟨PWM_NO_MOVEMENT, 200⟩)], [], [], [], ⟨false, false⟩, true, []⟩
        3 ⟨none, none, some 1, none⟩).2 =
      [HALCall.setPWMValue 3 (mapValue 1 0 1 0 255)] ∧
    alookup (handlePWMEvent
        ⟨[], [], [], [(3, ⟨PWM_NO_MOVEMENT, 200⟩)], [], [], [], ⟨false, false⟩, true, []⟩
        3 ⟨none, none, some 1, none⟩).1.pwmChannels 3 =
      some ⟨PWM_NO_MOVEMENT, mapValue 1 0 1 0 255⟩ :=
  c6_amended_speed_position_only
    ⟨[], [], [], [(3, ⟨PWM_NO_MOVEMENT, 200⟩)], [], [], [], ⟨false, false⟩, true, []⟩
    3 PWM_NO_MOVEMENT 200 ⟨none, none, some 1, none⟩ rfl rfl

/-- Witness for `c7_dio_value_iff_output`: a value write on an
OUTPUT-mode channel 2. -/
theorem c7_witness :
    ((handleDioEvent
        ⟨[(2, ⟨DigitalChannelMode.OUTPUT, false⟩)], [], [], [], [], [], [],
         ⟨false, false⟩, true, []⟩
        2 ⟨none, none, some true⟩).2.filter isSetDIOCall =
      if ((alookup (handleDioEvent
            ⟨[(2, ⟨DigitalChannelMode.OUTPUT, false⟩)], [], [], [], [], [], [],
             ⟨false, false⟩, true, []⟩
            2 ⟨none, none, some true⟩).1.dioChannels 2).getD
          ⟨DigitalChannelMode.UNCONFIGURED, false⟩).mode = DigitalChannelMode.OUTPUT
      then [HALCall.setDIOValue 2 true] else []) :=
  (c7_dio_value_iff_output
    ⟨[(2, ⟨DigitalChannelMode.OUTPUT, false⟩)], [], [], [], [], [], [],
     ⟨false, false⟩, true, []⟩
    2 DigitalChannelMode.OUTPUT false true ⟨none, none, some true⟩ rfl rfl).1

/-- No handler other than the encoder handler and the close handler
touches `_encoderChannels` (DIO). -/
theorem handleDioEvent_encoderChannels (s : EndpointState) (ch : Nat) (p : DIOPayload) :
    (handleDioEvent s ch p).1.encoderChannels = s.encoderChannels := by
  simp only [handleDioEvent]
  repeat' split
  all_goals rfl

theorem handleAnalogInEvent_encoderChannels (s : EndpointState) (ch : Nat) (p : AIPayload) :
    (handleAnalogInEvent s ch p).1.encoderChannels = s.encoderChannels := rfl

theorem handlePWMEvent_encoderChannels (s : EndpointState) (ch : Nat) (p : PWMPayload) :
    (handlePWMEvent s ch p).1.encoderChannels = s.encoderChannels := by
  simp only [handlePWMEvent]
  repeat' split
  all_goals rfl

theorem handleDriverStationEvent_encoderChannels (s : EndpointState) (p : DSPayload) :
    (handleDriverStationEvent s p).1.encoderChannels = s.encoderChannels := by
  simp only [handleDriverStationEvent]
  repeat' split
  all_goals rfl

theorem handleAccelEvent_encoderChannels (rob : Robot) (s : EndpointState) (name : List Char)
    (channel : Option Nat) (p : AccelPayload) :
    (handleAccelEvent rob s name channel p).1.encoderChannels = s.encoderChannels := by
  simp only [handleAccelEvent]
  repeat' split
  all_goals rfl

theorem handleGyroEvent_encoderChannels (rob : Robot) (s : EndpointState) (name : List Char)
    (channel : Option Nat) (p : GyroPayload) :
    (handleGyroEvent rob s name channel p).1.encoderChannels = s.encoderChannels := by
  simp only [handleGyroEvent]
  repeat' split
  all_goals rfl

theorem handleSimDeviceEvent_encoderChannels (rob : Robot) (s : EndpointState)
    (name : List Char) (channel : Option Nat) (p : List (List Char × JSVal)) :
    (handleSimDeviceEvent rob s name channel p).1.encoderChannels = s.encoderChannels := by
  simp only [handleSimDeviceEvent]
  repeat' split
  all_goals rfl

/-- The encoder handler never removes or alters an existing entry: the
init default is only installed for an absent channel. -/
theorem handleEncoderEvent_alookup_preserved (s : EndpointState) (ch i : Nat)
    (p : EncoderPayload) (info : IEncoderInfo)
    (h : alookup s.encoderChannels i = some info) :
    alookup (handleEncoderEvent s ch p).1.encoderChannels i = some info := by
  simp only [handleEncoderEvent, checkChannelInit]
  rcases hch : alookup s.encoderChannels ch with - | e
  · by_cases hinit : p.init = some true
    · by_cases hi : ch = i
      · subst hi
        rw [hch] at h
        cases h
      · simp [hinit, alookup_ainsert, hi, h]
    · simp [hinit, h]
  · simp only [hch]
    repeat' split
    all_goals simpa using h

/-- Every event except a transport close preserves an existing encoder
entry, quadrature indices included. -/
theorem step_encoder_entry_preserved (rob : Robot) (s : EndpointState) (e : WSEvent)
    (ch : Nat) (info : IEncoderInfo)
    (h : alookup s.encoderChannels ch = some info) (hne : e ≠ WSEvent.closeConn) :
    alookup (step rob s e).1.encoderChannels ch = some info := by
  cases e with
  | dio c p => rw [show (step rob s (WSEvent.dio c p)).1 = (handleDioEvent s c p).1 from rfl,
      handleDioEvent_encoderChannels]; exact h
  | analogIn c p => exact h
  | analogOut c p => exact h
  | pwm c p => rw [show (step rob s (WSEvent.pwm c p)).1 = (handlePWMEvent s c p).1 from rfl,
      handlePWMEvent_encoderChannels]; exact h
  | encoder c p => exact handleEncoderEvent_alookup_preserved s c ch p info h
  | driverStation p =>
    rw [show (step rob s (WSEvent.driverStation p)).1 = (handleDriverStationEvent s p).1 from rfl,
      handleDriverStationEvent_encoderChannels]; exact h
  | accel name channel p =>
    rw [show (step rob s (WSEvent.accel name channel p)).1 =
        (handleAccelEvent rob s name channel p).1 from rfl,
      handleAccelEvent_encoderChannels]; exact h
  | gyro name channel p =>
    rw [show (step rob s (WSEvent.gyro name channel p)).1 =
        (handleGyroEvent rob s name channel p).1 from rfl,
      handleGyroEvent_encoderChannels]; exact h
  | simDevice name channel p =>
    rw [show (step rob s (WSEvent.simDevice name channel p)).1 =
        (handleSimDeviceEvent rob s name channel p).1 from rfl,
      handleSimDeviceEvent_encoderChannels]; exact h
  | openConn => exact h
  | closeConn => exact absurd rfl hne

/-- C10.  Once an encoder entry exists, its stored quadrature indices
survive any sequence of close-free events unchanged, and a later init
message for the same channel leaves the entry untouched while
re-invoking the hardware registration hook with the ORIGINALLY stored
indices, not those of the new payload. -/
theorem c10_encoder_indices_immutable (rob : Robot) (s : EndpointState) (es : List WSEvent)
    (ch : Nat) (a b : Option Nat) (c : ℚ) (p : EncoderPayload)
    (hch : alookup s.encoderChannels ch = some ⟨a, b, c⟩)
    (hnc : ∀ e ∈ es, e ≠ WSEvent.closeConn) (hinit : p.init = some true) :
    alookup (runSteps rob s es).1.encoderChannels ch = some ⟨a, b, c⟩ ∧
    (handleEncoderEvent s ch p).2 = [HALCall.registerEncoder ch a b] ∧
    alookup (handleEncoderEvent s ch p).1.encoderChannels ch = some ⟨a, b, c⟩ := by
  refine ⟨?_, ?_, ?_⟩
  · induction es generalizing s with
    | nil => exact hch
    | cons e rest ih =>
      exact ih (step rob s e).1
        (step_encoder_entry_preserved rob s e ch ⟨a, b, c⟩ hch
          (hnc e (List.mem_cons_self e rest)))
        (fun e' he' => hnc e' (List.mem_cons_of_mem _ he'))
  · simp [handleEncoderEvent, checkChannelInit, hch, hinit]
  · simp [handleEncoderEvent, checkChannelInit, hch, hinit]

/-- Witness for `c10_encoder_indices_immutable`: an entry for channel 1
storing quadrature indices 4/5 receives a re-init naming 8/9; the stored
indices and the re-registration use 4/5. -/
theorem c10_witness :
    (handleEncoderEvent
      ⟨[], [], [], [], [(1, ⟨some 4, some 5, 0⟩)], [], [], ⟨false, false⟩, false, []⟩
      1 ⟨some true, some 8, some 9, none, none⟩).2 =
      [HALCall.registerEncoder 1 (some 4) (some 5)] :=
  (c10_encoder_indices_immutable sampleRobot
    ⟨[], [], [], [], [(1, ⟨some 4, some 5, 0⟩)], [], [], ⟨false, false⟩, false, []⟩
    [] 1 (some 4) (some 5) 0 ⟨some true, some 8, some 9, none, none⟩ rfl
    (fun e he => absurd he (List.not_mem_nil e)) rfl).2.1

/-- C5 (amended).  A message without the init flag addressed to an index
with no table entry causes no hardware-abstraction call in any category.
For analog-in, analog-out (whose events have no subscribed handler in
this revision), PWM and encoder it also leaves the whole engine state
unchanged; for DIO the channel tables are equally untouched but the
message's `<input`/`<>value` fields are buffered into
`_pendingDioEvents` for replay after a later init. -/
theorem c5_amended_uninitialized_dropped (s : EndpointState) (rob : Robot) (ch : Nat)
    (pd : DIOPayload) (pa : AIPayload) (pao : AOPayload) (pp : PWMPayload) (pe : EncoderPayload)
    (hani : pa.init ≠ some true) (haabs : alookup s.ainChannels ch = none)
    (hpni : pp.init ≠ some true) (hpabs : alookup s.pwmChannels ch = none)
    (heni : pe.init ≠ some true) (heabs : alookup s.encoderChannels ch = none)
    (hdni : pd.init ≠ some true) (hdabs : alookup s.dioChannels ch = none) :
    handleAnalogInEvent s ch pa = (s, []) ∧
    step rob s (WSEvent.analogOut ch pao) = (s, []) ∧
    handlePWMEvent s ch pp = (s, []) ∧
    handleEncoderEvent s ch pe = (s, []) ∧
    (handleDioEvent s ch pd).2 = [] ∧
    (handleDioEvent s ch pd).1 =
      { s with pendingDioEvents := (ainsert s.pendingDioEvents ch
          ⟨(match pd.input with
             | some b => some b
             | none => ((alookup s.pendingDioEvents ch).getD ⟨none, none⟩).input),
           (match pd.value with
             | some b => some b
             | none => ((alookup s.pendingDioEvents ch).getD ⟨none, none⟩).value)⟩) } := by
  refine ⟨?_, rfl, ?_, ?_, ?_, ?_⟩
  · simp [handleAnalogInEvent, checkChannelInit, haabs, hani]
  · simp only [handlePWMEvent, checkChannelInit, hpabs]
    rw [if_neg hpni]
    split <;> first | rfl | contradiction
  · simp only [handleEncoderEvent, checkChannelInit, heabs]
    rw [if_neg heni]
    split <;> rfl
  · simp [handleDioEvent, checkChannelInit, hdabs, hdni]
  · simp [handleDioEvent, checkChannelInit, hdabs, hdni]

/-- Witness for `c5_amended_uninitialized_dropped`: non-init messages to
untouched index 7 of a fresh engine. -/
theorem c5_amended_witness :
    handleAnalogInEvent freshState 7 ⟨some false⟩ = (freshState, []) :=
  (c5_amended_uninitialized_dropped freshState sampleRobot 7
    ⟨none, some true, none⟩ ⟨some false⟩ ⟨none, none⟩ ⟨none, some 1, none, none⟩
    ⟨none, some 1, some 2, none, none⟩
    (by decide) rfl (by decide) rfl (by decide) rfl (by decide) rfl).1

/-- C8 (amended).  For a field name carrying no direction marker of its
own, registering it with direction BIDIR and then `setValue` followed by
`getValue` — each addressed by either the bare name or the `<>`-prefixed
identifier — returns the just-set value. -/
theorem c8_amended_roundtrip {α : Type} (dev dev1 : SimDevice α) (f k k' : List Char)
    (d v : α)
    (hf : fieldNameAndDirection f = ⟨f, FieldDirection.UNK⟩)
    (hreg : dev.registerField f FieldDirection.BIDIR d = some dev1)
    (hk : k = f ∨ k = fieldWithDirMarker f FieldDirection.BIDIR)
    (hk' : k' = f ∨ k' = fieldWithDirMarker f FieldDirection.BIDIR) :
    (dev1.setValue k v).getValue k' = some v := by
  rcases hn : alookup dev.fieldNameToIdent f with - | old
  · simp only [SimDevice.registerField, hn, Option.some.injEq] at hreg
    subst hreg
    have hkf : (fieldNameAndDirection k).field = f := by
      rcases hk with rfl | rfl
      · rw [hf]
      · rfl
    have hk'f : (fieldNameAndDirection k').field = f := by
      rcases hk' with rfl | rfl
      · rw [hf]
      · rfl
    simp [SimDevice.setValue, SimDevice.getValue, hkf, hk'f, alookup_ainsert_self]
  · simp [SimDevice.registerField, hn] at hreg

/-- Witness for `c8_amended_roundtrip`: field `"x"`, set via the bare
name, read back via the prefixed identifier `"<>x"`. -/
theorem c8_amended_witness :
    (SimDevice.setValue
        (⟨[(['x'], ['<', '>', 'x'])], [(['<', '>', 'x'], (0 : ℚ))]⟩ : SimDevice ℚ)
        ['x'] 1).getValue ['<', '>', 'x'] = some 1 :=
  c8_amended_roundtrip (⟨[], []⟩ : SimDevice ℚ) _ ['x'] ['x'] ['<', '>', 'x'] 0 1
    rfl rfl (Or.inl rfl) (Or.inr rfl)

theorem checkChannelInit_fst {α : Type} (ch : Nat) (im : Option Bool)
    (m : List (Nat × α)) (dv : α) :
    (checkChannelInit ch im m dv).1 = ((alookup m ch).isSome || (im == some true)) := by
  rcases hch : alookup m ch with - | e
  · by_cases hinit : im = some true <;> simp [checkChannelInit, hch, hinit]
  · simp [checkChannelInit, hch]

theorem checkChannelInit_isSome {α : Type} (ch : Nat) (im : Option Bool)
    (m : List (Nat × α)) (dv : α) (i : Nat) :
    (alookup (checkChannelInit ch im m dv).2 i).isSome =
      ((alookup m i).isSome || (ch == i && im == some true)) := by
  rcases hch : alookup m ch with - | e
  · by_cases hinit : im = some true
    · by_cases hi : ch = i
      · subst hi
        simp [checkChannelInit, hch, hinit, alookup_ainsert_self]
      · simp [checkChannelInit, hch, hinit, alookup_ainsert, hi]
    · by_cases hi : ch = i
      · subst hi
        simp [checkChannelInit, hch, hinit]
      · simp [checkChannelInit, hch, hinit, hi]
  · by_cases hi : ch = i
    · subst hi
      simp [checkChannelInit, hch]
    · simp [checkChannelInit, hch, hi]

theorem handleDioEvent_dio_isSome (s : EndpointState) (ch : Nat) (p : DIOPayload) (i : Nat) :
    (alookup (handleDioEvent s ch p).1.dioChannels i).isSome =
      ((alookup s.dioChannels i).isSome || (ch == i && p.init == some true)) := by
  simp only [handleDioEvent]
  repeat' split
  all_goals
    simp_all [alookup_isSome_aupdate, checkChannelInit_isSome, checkChannelInit_fst]

theorem handlePWMEvent_pwm_isSome (s : EndpointState) (ch : Nat) (p : PWMPayload) (i : Nat) :
    (alookup (handlePWMEvent s ch p).1.pwmChannels i).isSome =
      ((alookup s.pwmChannels i).isSome || (ch == i && p.init == some true)) := by
  simp only [handlePWMEvent]
  repeat' split
  all_goals
    simp_all [alookup_isSome_aupdate, checkChannelInit_isSome, checkChannelInit_fst]

theorem handleEncoderEvent_enc_isSome (s : EndpointState) (ch : Nat) (p : EncoderPayload)
    (i : Nat) :
    (alookup (handleEncoderEvent s ch p).1.encoderChannels i).isSome =
      ((alookup s.encoderChannels i).isSome || (ch == i && p.init == some true)) := by
  simp only [handleEncoderEvent]
  repeat' split
  all_goals
    simp_all [alookup_isSome_aupdate, checkChannelInit_isSome, checkChannelInit_fst]

theorem handleDriverStationEvent_pwm_isSome (s : EndpointState) (p : DSPayload) (i : Nat) :
    (alookup (handleDriverStationEvent s p).1.pwmChannels i).isSome =
      (alookup s.pwmChannels i).isSome := by
  simp only [handleDriverStationEvent]
  repeat' split
  all_goals simp [stopPWMs, alookup_amapValues]

theorem handleDioEvent_tables (s : EndpointState) (ch : Nat) (p : DIOPayload) :
    (handleDioEvent s ch p).1.ainChannels = s.ainChannels ∧
    (handleDioEvent s ch p).1.aoutChannels = s.aoutChannels ∧
    (handleDioEvent s ch p).1.pwmChannels = s.pwmChannels := by
  simp only [handleDioEvent]
  repeat' split
  all_goals exact ⟨rfl, rfl, rfl⟩

theorem handlePWMEvent_tables (s : EndpointState) (ch : Nat) (p : PWMPayload) :
    (handlePWMEvent s ch p).1.dioChannels = s.dioChannels ∧
    (handlePWMEvent s ch p).1.ainChannels = s.ainChannels ∧
    (handlePWMEvent s ch p).1.aoutChannels = s.aoutChannels := by
  simp only [handlePWMEvent]
  repeat' split
  all_goals exact ⟨rfl, rfl, rfl⟩

theorem handleEncoderEvent_tables (s : EndpointState) (ch : Nat) (p : EncoderPayload) :
    (handleEncoderEvent s ch p).1.dioChannels = s.dioChannels ∧
    (handleEncoderEvent s ch p).1.ainChannels = s.ainChannels ∧
    (handleEncoderEvent s ch p).1.aoutChannels = s.aoutChannels ∧
    (handleEncoderEvent s ch p).1.pwmChannels = s.pwmChannels := by
  simp only [handleEncoderEvent]
  repeat' split
  all_goals exact ⟨rfl, rfl, rfl, rfl⟩

theorem handleDriverStationEvent_tables (s : EndpointState) (p : DSPayload) :
    (handleDriverStationEvent s p).1.dioChannels = s.dioChannels ∧
    (handleDriverStationEvent s p).1.ainChannels = s.ainChannels ∧
    (handleDriverStationEvent s p).1.aoutChannels = s.aoutChannels := by
  simp only [handleDriverStationEvent]
  repeat' split
  all_goals exact ⟨rfl, rfl, rfl⟩

theorem handleAccelEvent_tables (rob : Robot) (s : EndpointState) (name : List Char)
    (channel : Option Nat) (p : AccelPayload) :
    (handleAccelEvent rob s name channel p).1.dioChannels = s.dioChannels ∧
    (handleAccelEvent rob s name channel p).1.ainChannels = s.ainChannels ∧
    (handleAccelEvent rob s name channel p).1.aoutChannels = s.aoutChannels ∧
    (handleAccelEvent rob s name channel p).1.pwmChannels = s.pwmChannels := by
  simp only [handleAccelEvent]
  repeat' split
  all_goals exact ⟨rfl, rfl, rfl, rfl⟩

theorem handleGyroEvent_tables (rob : Robot) (s : EndpointState) (name : List Char)
    (channel : Option Nat) (p : GyroPayload) :
    (handleGyroEvent rob s name channel p).1.dioChannels = s.dioChannels ∧
    (handleGyroEvent rob s name channel p).1.ainChannels = s.ainChannels ∧
    (handleGyroEvent rob s name channel p).1.aoutChannels = s.aoutChannels ∧
    (handleGyroEvent rob s name channel p).1.pwmChannels = s.pwmChannels := by
  simp only [handleGyroEvent]
  repeat' split
  all_goals exact ⟨rfl, rfl, rfl, rfl⟩

theorem handleSimDeviceEvent_state (rob : Robot) (s : EndpointState) (name : List Char)
    (channel : Option Nat) (p : List (List Char × JSVal)) :
    (handleSimDeviceEvent rob s name channel p).1 = s := by
  simp only [handleSimDeviceEvent]
  repeat' split
  all_goals rfl

theorem step_tableHas (rob : Robot) (s : EndpointState) (e : WSEvent) (cat : ChanCat)
    (i : Nat) :
    tableHas (step rob s e).1 cat i =
      if e = WSEvent.closeConn then false else (tableHas s cat i || eventInits e cat i) := by
  cases e with
  | dio ch p =>
    cases cat <;>
      simp [step, tableHas, eventInits, handleDioEvent_dio_isSome,
        (handleDioEvent_tables s ch p).1, (handleDioEvent_tables s ch p).2.1,
        (handleDioEvent_tables s ch p).2.2, handleDioEvent_encoderChannels]
  | analogIn ch p =>
    cases cat <;> simp [step, tableHas, eventInits, handleAnalogInEvent,
      checkChannelInit_isSome]
  | analogOut ch p => cases cat <;> simp [step, tableHas, eventInits]
  | pwm ch p =>
    cases cat <;>
      simp [step, tableHas, eventInits, handlePWMEvent_pwm_isSome,
        (handlePWMEvent_tables s ch p).1, (handlePWMEvent_tables s ch p).2.1,
        (handlePWMEvent_tables s ch p).2.2, handlePWMEvent_encoderChannels]
  | encoder ch p =>
    cases cat <;>
      simp [step, tableHas, eventInits, handleEncoderEvent_enc_isSome,
        (handleEncoderEvent_tables s ch p).1, (handleEncoderEvent_tables s ch p).2.1,
        (handleEncoderEvent_tables s ch p).2.2.1, (handleEncoderEvent_tables s ch p).2.2.2]
  | driverStation p =>
    cases cat <;>
      simp [step, tableHas, eventInits, handleDriverStationEvent_pwm_isSome,
        (handleDriverStationEvent_tables s p).1, (handleDriverStationEvent_tables s p).2.1,
        (handleDriverStationEvent_tables s p).2.2, handleDriverStationEvent_encoderChannels]
  | accel name channel p =>
    cases cat <;>
      simp [step, tableHas, eventInits,
        (handleAccelEvent_tables rob s name channel p).1,
        (handleAccelEvent_tables rob s name channel p).2.1,
        (handleAccelEvent_tables rob s name channel p).2.2.1,
        (handleAccelEvent_tables rob s name channel p).2.2.2,
        handleAccelEvent_encoderChannels]
  | gyro name channel p =>
    cases cat <;>
      simp [step, tableHas, eventInits,
        (handleGyroEvent_tables rob s name channel p).1,
        (handleGyroEvent_tables rob s name channel p).2.1,
        (handleGyroEvent_tables rob s name channel p).2.2.1,
        (handleGyroEvent_tables rob s name channel p).2.2.2,
        handleGyroEvent_encoderChannels]
  | simDevice name channel p =>
    cases cat <;> simp [step, tableHas, eventInits, handleSimDeviceEvent_state]
  | openConn => cases cat <;> simp [step, tableHas, eventInits]
  | closeConn => cases cat <;> simp [step, tableHas, eventInits, handleCloseConnection, alookup]

theorem runSteps_tableHas (rob : Robot) (es : List WSEvent) :
    ∀ (s : EndpointState) (acc : ChanCat → Nat → Bool),
      (∀ cat i, tableHas s cat i = acc cat i) →
      ∀ cat i, tableHas (runSteps rob s es).1 cat i = initSinceAux acc es cat i := by
  induction es with
  | nil => exact fun s acc h cat i => h cat i
  | cons e rest ih =>
    intro s acc h cat i
    apply ih
    intro cat' i'
    rw [step_tableHas]
    by_cases hc : e = WSEvent.closeConn <;> simp [hc, h cat' i']

/-- C4 (amended).  For the five per-category channel tables, after any
trace of inbound events from a fresh engine, an entry for index `i`
exists if and only if an initialization message for that category and
index has been observed since the most recent transport disconnect (for
analog-out no handler is subscribed, so its table is always empty).
The claim's stronger form fails for device tables: see the accelerometer
counterexample. -/
theorem c4_amended_channel_tables_iff_init (rob : Robot) (es : List WSEvent)
    (cat : ChanCat) (i : Nat) :
    tableHas (runSteps rob freshState es).1 cat i = initSince es cat i :=
  runSteps_tableHas rob es freshState (fun _ _ => false)
    (fun cat' _ => by cases cat' <;> rfl) cat i

end WpilibWs
